import Mathlib

/-!
Verification of `virttest/libvirt_storage.py` (avocado-vt).

The module shells out to the `virsh` CLI and parses its textual output.
We embed each method as a pure Lean function of the external command's
outcome: a virsh invocation with `ignore_status=False` is modelled as a
value of type `Except CmdError String` (the raised `CmdError`, or the
command's `stdout_text`).  Python exceptions that can escape a method are
modelled with the `PyErr` error type; Python dicts are association lists
with insert-or-overwrite (`dictSet`) semantics.

Python string primitives (`str.strip`, `str.splitlines`, `str.split`,
`re.findall`) are translated over `List Char`.  The whitespace class is
the ASCII/latin-1 part of Python's; virsh output is ASCII, and both the
code model and the spec-side definitions use the same class.
-/

namespace LibvirtStorage

/-- Characters treated as whitespace by Python's `str.strip`/`str.split`
(ASCII and latin-1 part of the class). -/
def isPySpace (c : Char) : Bool :=
  c = ' ' || c = '\t' || c = '\n' || c = '\x0b' || c = '\x0c' || c = '\x0d' ||
  c = '\x1c' || c = '\x1d' || c = '\x1e' || c = '\x1f' || c = '\x85' || c = '\xa0' ||
  c = '\u2028' || c = '\u2029'

/-- Characters at which Python's `str.splitlines` breaks a line
(besides the two-character `\r\n` sequence). -/
def isLineBreak (c : Char) : Bool :=
  c = '\n' || c = '\x0d' || c = '\x0b' || c = '\x0c' ||
  c = '\x1c' || c = '\x1d' || c = '\x1e' || c = '\x85' ||
  c = '\u2028' || c = '\u2029'

/-- Python `str.lstrip()`. -/
def stripLeft (cs : List Char) : List Char := cs.dropWhile isPySpace

/-- Python `str.rstrip()`. -/
def stripRight (cs : List Char) : List Char := (cs.reverse.dropWhile isPySpace).reverse

/-- Python `str.strip()`. -/
def pyStrip (cs : List Char) : List Char := stripRight (stripLeft cs)

/-- Worker for `splitlines`: `acc` holds the current line reversed.
A trailing line terminator does not open a new (empty) final line,
matching Python. -/
def splitlinesGo : List Char → List Char → List (List Char)
  | acc, [] => if acc.isEmpty then [] else [acc.reverse]
  | acc, '\x0d' :: '\n' :: rest => acc.reverse :: splitlinesGo [] rest
  | acc, c :: rest =>
      if isLineBreak c then acc.reverse :: splitlinesGo [] rest
      else splitlinesGo (c :: acc) rest

/-- Python `str.splitlines()`. -/
def splitlines (cs : List Char) : List (List Char) := splitlinesGo [] cs

/-- Worker for no-separator `str.split()`: `cur` holds the current word
reversed. -/
def splitWSGo : List Char → List Char → List (List Char)
  | cur, [] => if cur.isEmpty then [] else [cur.reverse]
  | cur, c :: rest =>
      if isPySpace c then
        if cur.isEmpty then splitWSGo [] rest else cur.reverse :: splitWSGo [] rest
      else splitWSGo (c :: cur) rest

/-- Python `str.split()` with no argument: split on whitespace runs,
dropping empty fields. -/
def pySplitWS (cs : List Char) : List (List Char) := splitWSGo [] cs

/-- `leadsWith s l` is Python's `l.startswith(s)` over char lists. -/
def leadsWith : List Char → List Char → Bool
  | [], _ => true
  | _ :: _, [] => false
  | a :: as, b :: bs => a = b && leadsWith as bs

/-- Worker for `str.split(sep)` with a non-empty separator `s0 :: srest`:
scan left to right, break at each (non-overlapping) occurrence.  After a
hit the remaining `srest.length` separator characters are consumed one
at a time through the skip counter (first argument), keeping the
recursion structural. -/
def pySplitGo (s0 : Char) (srest : List Char) :
    Nat → List Char → List Char → List (List Char)
  | _ + 1, cur, [] => [cur.reverse]
  | skip + 1, cur, _ :: rest => pySplitGo s0 srest skip cur rest
  | 0, cur, [] => [cur.reverse]
  | 0, cur, c :: rest =>
      if leadsWith (s0 :: srest) (c :: rest) then
        cur.reverse :: pySplitGo s0 srest srest.length [] rest
      else
        pySplitGo s0 srest 0 (c :: cur) rest

/-- Python `str.split(sep)` for non-empty `sep`.  (Python raises
`ValueError: empty separator` for an empty `sep`; callers that can reach
that case check for it and produce the error themselves.) -/
def pySplit (sep l : List Char) : List (List Char) :=
  match sep with
  | [] => [l]
  | s0 :: srest => pySplitGo s0 srest 0 [] l

/-- Index of the first position of `l` at which `sep` occurs (Python
`l.find(sep)` for the positions where a match begins). -/
def subFirstIdx (sep : List Char) : List Char → Option Nat
  | [] => if leadsWith sep [] then some 0 else none
  | c :: rest =>
      if leadsWith sep (c :: rest) then some 0
      else (subFirstIdx sep rest).map (· + 1)

/-- Scan positions `n, n-1, …, 0` and return the largest position at
which `sep` occurs in `l`. -/
def lastHitFrom (sep l : List Char) : Nat → Option Nat
  | 0 => if leadsWith sep l then some 0 else none
  | n + 1 =>
      if leadsWith sep (l.drop (n + 1)) then some (n + 1)
      else lastHitFrom sep l n

/-- Index of the last position of `l` at which `sep` occurs. -/
def subLastIdx (sep l : List Char) : Option Nat := lastHitFrom sep l l.length

/-- Python `enumerate`, starting at a given index. -/
def enum' {α : Type} : Nat → List α → List (Nat × α)
  | _, [] => []
  | n, a :: l => (n, a) :: enum' (n + 1) l

/-- Python `l[n]` as an option (subscripting raises `IndexError` on
`none`). -/
def nth? {α : Type} : List α → Nat → Option α
  | [], _ => none
  | a :: _, 0 => some a
  | _ :: l, n + 1 => nth? l n

/-- `nth?` with a default value. -/
def nthD {α : Type} (l : List α) (n : Nat) (d : α) : α := (nth? l n).getD d

/-- A raised `avocado.utils.process.CmdError`. -/
structure CmdError where
  msg : String
deriving DecidableEq

/-- Python exceptions that can escape the methods of this module. -/
inductive PyErr where
  | cmdError (e : CmdError)
  | indexError
  | valueError
  | keyError
  | nameError
deriving DecidableEq

deriving instance DecidableEq for Except

/-- A Python dict with string keys: association list in insertion order. -/
def dictSet {α : Type} (d : List (String × α)) (k : String) (v : α) :
    List (String × α) :=
  if d.any (fun p => p.1 == k) then
    d.map (fun p => if p.1 == k then (k, v) else p)
  else d ++ [(k, v)]

/-- Python `k in d`. -/
def dictContains {α : Type} (d : List (String × α)) (k : String) : Bool :=
  d.any (fun p => p.1 == k)

/-- Python `d[k]` as an option (`KeyError` on `none`). -/
def dictGet? {α : Type} (d : List (String × α)) (k : String) : Option α :=
  (d.find? (fun p => p.1 == k)).map (·.2)

/-- A `name → value` dict of strings. -/
abbrev PyDict := List (String × String)

/-! ## `StoragePool` methods (`libvirt_storage.py`, lines 115-428) -/

/-- `re.match("[N|n]ame", column)`: the column starts with one of the
characters `N`, `|`, `n` followed by the literal `ame`. -/
def matchesName (col : List Char) : Bool :=
  match col with
  | c :: 'a' :: 'm' :: 'e' :: _ => c = 'N' || c = '|' || c = 'n'
  | _ => false

/-- Inner loop of `list_pools` for one table line: walk
`enumerate(head.split())`; the column matching `[N|n]ame` sets the pool
name, every other column adds `column -> details[index]` to the details
dict; `details[index]` raises `IndexError` out of range, and a missing
name column leaves `pool_name` unbound (`NameError` at
`pools[pool_name]`). -/
def lpGo (fields : List (List Char)) :
    List (Nat × List Char) → Option String → PyDict →
    Except PyErr (String × PyDict)
  | [], pn, acc =>
      match pn with
      | some n => .ok (n, acc)
      | none => .error .nameError
  | p :: rest, pn, acc =>
      match nth? fields p.1 with
      | none => .error .indexError
      | some v =>
          if matchesName p.2 then lpGo fields rest (some ⟨v⟩) acc
          else lpGo fields rest pn (dictSet acc ⟨p.2⟩ ⟨v⟩)

/-- One data line of `pool-list` output: returns the pool name and its
details dict. -/
def lpLine (headCols fields : List (List Char)) : Except PyErr (String × PyDict) :=
  lpGo fields (enum' 0 headCols) none []

/-- The `for line in lines:` loop of `list_pools`. -/
def lpLines (headCols : List (List Char)) :
    List (List Char) → List (String × PyDict) →
    Except PyErr (List (String × PyDict))
  | [], pools => .ok pools
  | l :: ls, pools =>
      match lpLine headCols (pySplitWS l) with
      | .error e => .error e
      | .ok nd => lpLines headCols ls (dictSet pools nd.1 nd.2)

/-- `StoragePool.list_pools` (lines 125-154).  The `pool_list` call uses
`ignore_status=False` and the comment says "Allow it raise exception if
command has executed failed", so a command failure propagates.  The
stripped stdout is split into lines; with two or fewer lines the empty
dict is returned, otherwise the first line is the header, the second is
skipped, and each remaining line contributes one pool entry. -/
def list_pools (res : Except CmdError String) :
    Except PyErr (List (String × PyDict)) :=
  match res with
  | .error e => .error (.cmdError e)
  | .ok out =>
      let lines := splitlines (pyStrip out.data)
      if lines.length ≤ 2 then .ok []
      else lpLines (pySplitWS (lines.headD [])) (lines.drop 2) []

/-- `StoragePool.pool_exists` (lines 156-165): `except process.CmdError:
return False`, otherwise `name in pools`.  Parse errors raised inside
`list_pools` are not `CmdError` and propagate. -/
def pool_exists (name : String) (res : Except CmdError String) :
    Except PyErr Bool :=
  match res with
  | .error _ => .ok false
  | .ok out =>
      match list_pools (.ok out) with
      | .error e => .error e
      | .ok pools => .ok (dictContains pools name)

/-- `StoragePool.pool_state` (lines 167-176):
`self.list_pools()[name]["State"]` with `except (CmdError, KeyError):
return None`. -/
def pool_state (name : String) (res : Except CmdError String) :
    Except PyErr (Option String) :=
  match res with
  | .error _ => .ok none
  | .ok out =>
      match list_pools (.ok out) with
      | .error e => .error e
      | .ok pools =>
          match dictGet? pools name with
          | none => .ok none
          | some d => .ok (dictGet? d "State")

/-- `StoragePool.pool_autostart` (lines 178-187): same shape as
`pool_state` with the `"Autostart"` column. -/
def pool_autostart (name : String) (res : Except CmdError String) :
    Except PyErr (Option String) :=
  match res with
  | .error _ => .ok none
  | .ok out =>
      match list_pools (.ok out) with
      | .error e => .error e
      | .ok pools =>
          match dictGet? pools name with
          | none => .ok none
          | some d => .ok (dictGet? d "Autostart")

/-- `StoragePool.pool_info` (lines 189-209): `except process.CmdError:
return info` ( `{}` ); otherwise each raw stdout line that splits on
`":"` into exactly two parts adds a `stripped-left -> stripped-right`
entry and every other line is ignored. -/
def pool_info (res : Except CmdError String) : PyDict :=
  match res with
  | .error _ => []
  | .ok out =>
      (splitlines out.data).foldl
        (fun info l =>
          match pySplit [':'] l with
          | [a, b] => dictSet info ⟨pyStrip a⟩ ⟨pyStrip b⟩
          | _ => info)
        []

/-- `StoragePool.get_pool_uuid` (lines 211-217):
`self.pool_info(name)["UUID"]`; a missing key raises `KeyError`. -/
def get_pool_uuid (res : Except CmdError String) : Except PyErr String :=
  match dictGet? (pool_info res) "UUID" with
  | none => .error .keyError
  | some v => .ok v

/-- `StoragePool.is_pool_active` (lines 219-225):
`self.pool_state(name) == "active"`. -/
def is_pool_active (name : String) (res : Except CmdError String) :
    Except PyErr Bool :=
  match pool_state name res with
  | .error e => .error e
  | .ok s => .ok (s == some "active")

/-- `StoragePool.is_pool_persistent` (lines 227-233):
`self.pool_info(name)["Persistent"] == "yes"`; a missing key raises
`KeyError`. -/
def is_pool_persistent (res : Except CmdError String) : Except PyErr Bool :=
  match dictGet? (pool_info res) "Persistent" with
  | none => .error .keyError
  | some v => .ok (v == "yes")

/-- `StoragePool.delete_pool` (lines 235-268).  `destroyRes` is the
truthiness of the `pool_destroy` call (made only when the pool is
active); `undefRes` is the `pool_undefine` call with
`ignore_status=False`; `existsRes2` feeds the `pool_exists` re-check in
the undefine failure branch. -/
def delete_pool (name : String) (listRes1 : Except CmdError String)
    (destroyRes : Bool) (undefRes : Except CmdError Unit)
    (existsRes2 : Except CmdError String) : Except PyErr Bool :=
  match is_pool_active name listRes1 with
  | .error e => .error e
  | .ok active =>
      if active && !destroyRes then .ok false
      else
        match undefRes with
        | .ok _ => .ok true
        | .error _ =>
            match pool_exists name existsRes2 with
            | .error e => .error e
            | .ok true => .ok false
            | .ok false => .ok true

/-- `StoragePool.set_pool_autostart` (lines 270-280): `except CmdError:
log, return False`; else `True`. -/
def set_pool_autostart (cmdRes : Except CmdError Unit) : Bool :=
  match cmdRes with
  | .error _ => false
  | .ok _ => true

/-- `StoragePool.build_pool` (lines 282-292): same try/except shape. -/
def build_pool (cmdRes : Except CmdError Unit) : Bool :=
  match cmdRes with
  | .error _ => false
  | .ok _ => true

/-- `StoragePool.start_pool` (lines 294-307): returns `True` already
when the pool is active; otherwise `pool_start` failure gives `False`. -/
def start_pool (name : String) (listRes : Except CmdError String)
    (startRes : Except CmdError Unit) : Except PyErr Bool :=
  match is_pool_active name listRes with
  | .error e => .error e
  | .ok true => .ok true
  | .ok false =>
      match startRes with
      | .error _ => .ok false
      | .ok _ => .ok true

/-- `StoragePool.destroy_pool` (lines 309-316): `True` when already
inactive, otherwise the `pool_destroy` call's own return value. -/
def destroy_pool (name : String) (listRes : Except CmdError String)
    (destroyRes : Bool) : Except PyErr Bool :=
  match is_pool_active name listRes with
  | .error e => .error e
  | .ok false => .ok true
  | .ok true => .ok destroyRes

/-- `StoragePool.define_dir_pool` (lines 318-330): `pool_define_as` with
`ignore_status=False`; `except CmdError: log, return False`. -/
def define_dir_pool (cmdRes : Except CmdError Unit) : Bool :=
  match cmdRes with
  | .error _ => false
  | .ok _ => true

/-- `StoragePool.define_fs_pool` (lines 332-348). -/
def define_fs_pool (cmdRes : Except CmdError Unit) : Bool :=
  match cmdRes with
  | .error _ => false
  | .ok _ => true

/-- `StoragePool.define_lvm_pool` (lines 350-363). -/
def define_lvm_pool (cmdRes : Except CmdError Unit) : Bool :=
  match cmdRes with
  | .error _ => false
  | .ok _ => true

/-- `StoragePool.define_disk_pool` (lines 365-378). -/
def define_disk_pool (cmdRes : Except CmdError Unit) : Bool :=
  match cmdRes with
  | .error _ => false
  | .ok _ => true

/-- `StoragePool.define_iscsi_pool` (lines 380-393). -/
def define_iscsi_pool (cmdRes : Except CmdError Unit) : Bool :=
  match cmdRes with
  | .error _ => false
  | .ok _ => true

/-- `StoragePool.define_netfs_pool` (lines 395-408). -/
def define_netfs_pool (cmdRes : Except CmdError Unit) : Bool :=
  match cmdRes with
  | .error _ => false
  | .ok _ => true

/-- `StoragePool.define_rbd_pool` (lines 410-427). -/
def define_rbd_pool (cmdRes : Except CmdError Unit) : Bool :=
  match cmdRes with
  | .error _ => false
  | .ok _ => true

/-! ## `PoolVolume` methods (`libvirt_storage.py`, lines 430-561) -/

/-- The word reached from the start of `cs` after skipping whitespace. -/
def wordAfterSpaces (cs : List Char) : List Char :=
  (cs.dropWhile isPySpace).takeWhile (fun c => !isPySpace c)

/-- `re.findall("\s+\S*/.*", line)[0]`.  The regex matches at the first
position holding a whitespace character whose following word (after the
whitespace run) contains a `/`; since `.*` is greedy and a line holds no
newline, the match is the whole suffix of the line from that position.
`none` models the `IndexError` branch (no match). -/
def findPathSuffix : List Char → Option (List Char)
  | [] => none
  | c :: rest =>
      if isPySpace c && (wordAfterSpaces (c :: rest)).contains '/' then
        some (c :: rest)
      else findPathSuffix rest

/-- One data line of `vol-list` output.  With a regex match the line is
split on the matched text: the key is the part before the match,
left-stripped, the value the stripped match.  With no match the code
sets `path = ""` and `line.split("")` raises
`ValueError: empty separator`. -/
def volLineEntry (line : List Char) : Except PyErr (String × String) :=
  match findPathSuffix line with
  | none => .error .valueError
  | some path => .ok (⟨stripLeft ((pySplit path line).headD [])⟩, ⟨pyStrip path⟩)

/-- The `for line in lines:` loop of `list_volumes`. -/
def lvLines : List (List Char) → PyDict → Except PyErr PyDict
  | [], vols => .ok vols
  | l :: ls, vols =>
      match volLineEntry l with
      | .error e => .error e
      | .ok nv => lvLines ls (dictSet vols nv.1 nv.2)

/-- `PoolVolume.list_volumes` (lines 437-464): `except CmdError: log,
return {}`; the stripped stdout with two or fewer lines gives `{}`;
otherwise each line from the third onward contributes one entry. -/
def list_volumes (res : Except CmdError String) : Except PyErr PyDict :=
  match res with
  | .error _ => .ok []
  | .ok out =>
      let lines := splitlines (pyStrip out.data)
      if lines.length ≤ 2 then .ok []
      else lvLines (lines.drop 2) []

/-- `PoolVolume.volume_exists` (lines 466-468): `name in
self.list_volumes()`. -/
def volume_exists (name : String) (res : Except CmdError String) :
    Except PyErr Bool :=
  match list_volumes res with
  | .error e => .error e
  | .ok vols => .ok (dictContains vols name)

/-- `PoolVolume.volume_info` (lines 470-487): `except CmdError: log,
return {}`; otherwise for each line of the stripped stdout,
`attr = line.split(":")[0]` and
`value = line.split("%s:" % attr)[-1].strip()`. -/
def volume_info (res : Except CmdError String) : PyDict :=
  match res with
  | .error _ => []
  | .ok out =>
      (splitlines (pyStrip out.data)).foldl
        (fun info l =>
          dictSet info ⟨(pySplit [':'] l).headD []⟩
            ⟨pyStrip ((pySplit ((pySplit [':'] l).headD [] ++ [':']) l).getLastD [])⟩)
        []

/-- `PoolVolume.create_volume` (lines 489-513).  The result is paired
with a flag recording whether the `vol_create_as` command was invoked.
`res1` feeds the initial `volume_exists` check, `res2` the re-check
after a successful create. -/
def create_volume (name : String) (res1 : Except CmdError String)
    (createRes : Except CmdError Unit) (res2 : Except CmdError String) :
    Except PyErr (Bool × Bool) :=
  match volume_exists name res1 with
  | .error e => .error e
  | .ok true => .ok (false, false)
  | .ok false =>
      match createRes with
      | .error _ => .ok (false, true)
      | .ok _ =>
          match volume_exists name res2 with
          | .error e => .error e
          | .ok false => .ok (false, true)
          | .ok true => .ok (true, true)

/-- `PoolVolume.delete_volume` (lines 515-535).  The result is paired
with a flag recording whether the `vol_delete` command was invoked. -/
def delete_volume (name : String) (res1 : Except CmdError String)
    (delRes : Except CmdError Unit) (res2 : Except CmdError String) :
    Except PyErr (Bool × Bool) :=
  match volume_exists name res1 with
  | .error e => .error e
  | .ok false => .ok (true, false)
  | .ok true =>
      match delRes with
      | .error _ => .ok (false, true)
      | .ok _ =>
          match volume_exists name res2 with
          | .error e => .error e
          | .ok false => .ok (true, true)
          | .ok true => .ok (false, true)

/-- `PoolVolume.clone_volume` (lines 537-561).  `resA`/`resB` feed the
two `volume_exists` guards (Python's `and` short-circuits), `res2` the
re-check after a successful clone. -/
def clone_volume (oldName newName : String)
    (resA resB : Except CmdError String) (cloneRes : Except CmdError Unit)
    (res2 : Except CmdError String) : Except PyErr Bool :=
  match volume_exists oldName resA with
  | .error e => .error e
  | .ok false => .ok false
  | .ok true =>
      match volume_exists newName resB with
      | .error e => .error e
      | .ok true => .ok false
      | .ok false =>
          match cloneRes with
          | .error _ => .ok false
          | .ok _ =>
              match volume_exists newName res2 with
              | .error e => .error e
              | .ok b => .ok b

/-! ## Spec-side definitions

These follow the wording of the specification claims (not the code) and
are compared with the code models in the refinement theorems below. -/

/-- Spec wording (C1): "the index of the header column matching the
regex `[N|n]ame`" — the indices of all matching header columns. -/
def specNameIdxs (headCols : List (List Char)) : List Nat :=
  ((enum' 0 headCols).filter (fun p => matchesName p.2)).map Prod.fst

/-- Spec wording (C1): "the key is the whitespace-separated field at the
index of the header column matching the regex `[N|n]ame`". -/
def specPoolKey (headCols fields : List (List Char)) : String :=
  ⟨nthD fields ((specNameIdxs headCols).headD 0) []⟩

/-- Spec wording (C1): "the value is a dict mapping every other header
column name to the line's field at that column's index". -/
def specPoolVal (headCols fields : List (List Char)) : PyDict :=
  (enum' 0 headCols).foldl
    (fun a p =>
      if matchesName p.2 then a else dictSet a ⟨p.2⟩ ⟨nthD fields p.1 []⟩)
    []

/-- Spec wording (C1): first line is the header, the second is skipped,
every remaining line gives one entry; two or fewer lines give `{}`. -/
def specListPools (out : String) : List (String × PyDict) :=
  let lines := splitlines (pyStrip out.data)
  if lines.length ≤ 2 then []
  else
    (lines.drop 2).foldl
      (fun pools l =>
        dictSet pools (specPoolKey (pySplitWS (lines.headD [])) (pySplitWS l))
          (specPoolVal (pySplitWS (lines.headD [])) (pySplitWS l)))
      []

/-- Spec wording (C3): the empty dict when the command fails; otherwise
an entry for exactly those lines that split on `":"` into exactly two
parts, mapping the stripped part before the colon to the stripped part
after it. -/
def specPoolInfo (res : Except CmdError String) : PyDict :=
  match res with
  | .error _ => []
  | .ok out =>
      ((splitlines out.data).filter
          (fun l => (pySplit [':'] l).length == 2)).foldl
        (fun info l =>
          dictSet info ⟨pyStrip ((pySplit [':'] l).headD [])⟩
            ⟨pyStrip ((pySplit [':'] l).getLastD [])⟩)
        []

/-- Spec wording (C10): "the text before the line's first `:`" (the
whole line when it has no colon). -/
def beforeFirstColon (l : List Char) : List Char := l.takeWhile (fun c => c != ':')

/-- Claim wording (C10, as frozen): the stripped text following the
*first* occurrence of the attribute name immediately followed by `:`
(the stripped line when there is no occurrence). -/
def specVolValFirst (l : List Char) : List Char :=
  let sep := beforeFirstColon l ++ [':']
  match subFirstIdx sep l with
  | none => pyStrip l
  | some j => pyStrip (l.drop (j + sep.length))

/-- Amended wording (C10): the stripped text following the *last*
occurrence of the attribute name immediately followed by `:`
(the stripped line when there is no occurrence). -/
def specVolValLast (l : List Char) : List Char :=
  let sep := beforeFirstColon l ++ [':']
  match subLastIdx sep l with
  | none => pyStrip l
  | some j => pyStrip (l.drop (j + sep.length))

/-- `volume_info` as the frozen claim C10 words it (first occurrence). -/
def specVolumeInfoFirst (res : Except CmdError String) : PyDict :=
  match res with
  | .error _ => []
  | .ok out =>
      (splitlines (pyStrip out.data)).foldl
        (fun info l => dictSet info ⟨beforeFirstColon l⟩ ⟨specVolValFirst l⟩) []

/-- `volume_info` as amended for C10 (last occurrence). -/
def specVolumeInfoLast (res : Except CmdError String) : PyDict :=
  match res with
  | .error _ => []
  | .ok out =>
      (splitlines (pyStrip out.data)).foldl
        (fun info l => dictSet info ⟨beforeFirstColon l⟩ ⟨specVolValLast l⟩) []

/-! ## Object state (frame claim C7)

`StoragePool.__init__` stores only `virsh_instance`; `PoolVolume.__init__`
stores `pool_name` and `virsh_instance`.  No other method contains an
attribute assignment, so each method is a pure function of the fields and
of the external command results; the `…M` wrappers thread the object
state explicitly the way Python threads `self`.  `attrs` stands for any
further dynamically added attributes (none are ever added). -/

/-- The fields of a `StoragePool` object.  `virsh_instance` is an opaque
handle to the virsh session object. -/
structure StoragePoolSt where
  virsh_instance : Nat
  attrs : PyDict
deriving DecidableEq

/-- The fields of a `PoolVolume` object. -/
structure PoolVolumeSt where
  pool_name : String
  virsh_instance : Nat
  attrs : PyDict
deriving DecidableEq

def list_poolsM (st : StoragePoolSt) (res : Except CmdError String) :
    StoragePoolSt × Except PyErr (List (String × PyDict)) :=
  (st, list_pools res)

def pool_existsM (st : StoragePoolSt) (name : String)
    (res : Except CmdError String) : StoragePoolSt × Except PyErr Bool :=
  (st, pool_exists name res)

def pool_stateM (st : StoragePoolSt) (name : String)
    (res : Except CmdError String) :
    StoragePoolSt × Except PyErr (Option String) :=
  (st, pool_state name res)

def pool_autostartM (st : StoragePoolSt) (name : String)
    (res : Except CmdError String) :
    StoragePoolSt × Except PyErr (Option String) :=
  (st, pool_autostart name res)

def pool_infoM (st : StoragePoolSt) (res : Except CmdError String) :
    StoragePoolSt × PyDict :=
  (st, pool_info res)

def get_pool_uuidM (st : StoragePoolSt) (res : Except CmdError String) :
    StoragePoolSt × Except PyErr String :=
  (st, get_pool_uuid res)

def is_pool_activeM (st : StoragePoolSt) (name : String)
    (res : Except CmdError String) : StoragePoolSt × Except PyErr Bool :=
  (st, is_pool_active name res)

def is_pool_persistentM (st : StoragePoolSt) (res : Except CmdError String) :
    StoragePoolSt × Except PyErr Bool :=
  (st, is_pool_persistent res)

def delete_poolM (st : StoragePoolSt) (name : String)
    (listRes1 : Except CmdError String) (destroyRes : Bool)
    (undefRes : Except CmdError Unit) (existsRes2 : Except CmdError String) :
    StoragePoolSt × Except PyErr Bool :=
  (st, delete_pool name listRes1 destroyRes undefRes existsRes2)

def set_pool_autostartM (st : StoragePoolSt) (cmdRes : Except CmdError Unit) :
    StoragePoolSt × Bool :=
  (st, set_pool_autostart cmdRes)

def build_poolM (st : StoragePoolSt) (cmdRes : Except CmdError Unit) :
    StoragePoolSt × Bool :=
  (st, build_pool cmdRes)

def start_poolM (st : StoragePoolSt) (name : String)
    (listRes : Except CmdError String) (startRes : Except CmdError Unit) :
    StoragePoolSt × Except PyErr Bool :=
  (st, start_pool name listRes startRes)

def destroy_poolM (st : StoragePoolSt) (name : String)
    (listRes : Except CmdError String) (destroyRes : Bool) :
    StoragePoolSt × Except PyErr Bool :=
  (st, destroy_pool name listRes destroyRes)

def define_dir_poolM (st : StoragePoolSt) (cmdRes : Except CmdError Unit) :
    StoragePoolSt × Bool :=
  (st, define_dir_pool cmdRes)

def define_fs_poolM (st : StoragePoolSt) (cmdRes : Except CmdError Unit) :
    StoragePoolSt × Bool :=
  (st, define_fs_pool cmdRes)

def define_lvm_poolM (st : StoragePoolSt) (cmdRes : Except CmdError Unit) :
    StoragePoolSt × Bool :=
  (st, define_lvm_pool cmdRes)

def define_disk_poolM (st : StoragePoolSt) (cmdRes : Except CmdError Unit) :
    StoragePoolSt × Bool :=
  (st, define_disk_pool cmdRes)

def define_iscsi_poolM (st : StoragePoolSt) (cmdRes : Except CmdError Unit) :
    StoragePoolSt × Bool :=
  (st, define_iscsi_pool cmdRes)

def define_netfs_poolM (st : StoragePoolSt) (cmdRes : Except CmdError Unit) :
    StoragePoolSt × Bool :=
  (st, define_netfs_pool cmdRes)

def define_rbd_poolM (st : StoragePoolSt) (cmdRes : Except CmdError Unit) :
    StoragePoolSt × Bool :=
  (st, define_rbd_pool cmdRes)

def list_volumesM (st : PoolVolumeSt) (res : Except CmdError String) :
    PoolVolumeSt × Except PyErr PyDict :=
  (st, list_volumes res)

def volume_existsM (st : PoolVolumeSt) (name : String)
    (res : Except CmdError String) : PoolVolumeSt × Except PyErr Bool :=
  (st, volume_exists name res)

def volume_infoM (st : PoolVolumeSt) (res : Except CmdError String) :
    PoolVolumeSt × PyDict :=
  (st, volume_info res)

def create_volumeM (st : PoolVolumeSt) (name : String)
    (res1 : Except CmdError String) (createRes : Except CmdError Unit)
    (res2 : Except CmdError String) :
    PoolVolumeSt × Except PyErr (Bool × Bool) :=
  (st, create_volume name res1 createRes res2)

def delete_volumeM (st : PoolVolumeSt) (name : String)
    (res1 : Except CmdError String) (delRes : Except CmdError Unit)
    (res2 : Except CmdError String) :
    PoolVolumeSt × Except PyErr (Bool × Bool) :=
  (st, delete_volume name res1 delRes res2)

def clone_volumeM (st : PoolVolumeSt) (oldName newName : String)
    (resA resB : Except CmdError String) (cloneRes : Except CmdError Unit)
    (res2 : Except CmdError String) : PoolVolumeSt × Except PyErr Bool :=
  (st, clone_volume oldName newName resA resB cloneRes res2)

/-! ## Loop characterizations (proof helpers) -/

/-- Final value of the loop-carried `pool_name` variable after walking
the enumerated header columns (the last matching column wins). -/
def lastNm (fields : List (List Char)) (ecols : List (Nat × List Char))
    (pn : Option String) : Option String :=
  ecols.foldl
    (fun cur p => if matchesName p.2 then some ⟨nthD fields p.1 []⟩ else cur) pn

/-- Final details dict after walking the enumerated header columns. -/
def valFold (fields : List (List Char)) (ecols : List (Nat × List Char))
    (acc : PyDict) : PyDict :=
  ecols.foldl
    (fun a p =>
      if matchesName p.2 then a else dictSet a ⟨p.2⟩ ⟨nthD fields p.1 []⟩) acc

/-! ## Claim C2 (code bug): the pathless `vol-list` line -/

/-- C2: the claim says a data line in which the regex `\s+\S*/.*` finds
no match yields an entry with the empty string as value and the
left-stripped line as key.  The code instead sets `path = ""` and then
evaluates `line.split("")`, which raises `ValueError: empty separator`;
the exception propagates out of `list_volumes`.  This theorem evaluates
the model at such a failing input. -/
theorem list_volumes_empty_separator_raises :
    list_volumes (.ok "Name Path\n----\nvolname") = .error .valueError := by
  decide

/-! ## Claim C4: failure conversion differs by method -/

/-- C4 counterexample: `list_pools` runs `pool_list` with
`ignore_status=False` and no `try` (the comment reads "Allow it raise
exception if command has executed failed"), so the external failure
propagates as an exception instead of being converted to `False`. -/
theorem list_pools_propagates_failure :
    list_pools (.error ⟨"pool-list --all failed"⟩) =
      .error (.cmdError ⟨"pool-list --all failed"⟩) := rfl

/-- C4 amended: the action methods (`set_pool_autostart`, `build_pool`,
`start_pool`, `delete_pool`, the `define_*_pool` family, `create_volume`,
`delete_volume`, `clone_volume`) convert an external-command failure into
a logged `False` return; the query methods do not all do so:
`list_pools` propagates the `CmdError`, `pool_exists` returns `False`,
`pool_state` and `pool_autostart` return `None`, `pool_info`,
`list_volumes` and `volume_info` return the empty dict, `get_pool_uuid`
raises a `KeyError`, and `destroy_pool` on an active pool returns the
`pool_destroy` call's own value. -/
theorem error_conversion_by_method :
    (∀ e : CmdError, set_pool_autostart (.error e) = false) ∧
    (∀ e : CmdError, build_pool (.error e) = false) ∧
    (∀ e : CmdError, define_dir_pool (.error e) = false) ∧
    (∀ e : CmdError, define_fs_pool (.error e) = false) ∧
    (∀ e : CmdError, define_lvm_pool (.error e) = false) ∧
    (∀ e : CmdError, define_disk_pool (.error e) = false) ∧
    (∀ e : CmdError, define_iscsi_pool (.error e) = false) ∧
    (∀ e : CmdError, define_netfs_pool (.error e) = false) ∧
    (∀ e : CmdError, define_rbd_pool (.error e) = false) ∧
    (∀ e : CmdError, start_pool "p" (.ok "") (.error e) = .ok false) ∧
    (∀ e : CmdError,
      delete_pool "p" (.ok "") false (.error e) (.ok "Name\n----\np") = .ok false) ∧
    (∀ (e : CmdError) (res2 : Except CmdError String),
      create_volume "v" (.ok "Name Path\n---\n a /p") (.error e) res2 =
        .ok (false, true)) ∧
    (∀ (e : CmdError) (res2 : Except CmdError String),
      delete_volume "a" (.ok "Name Path\n---\n a /p") (.error e) res2 =
        .ok (false, true)) ∧
    (∀ (e : CmdError) (res2 : Except CmdError String),
      clone_volume "a" "v" (.ok "Name Path\n---\n a /p")
        (.ok "Name Path\n---\n a /p") (.error e) res2 = .ok false) ∧
    (∀ e : CmdError, list_pools (.error e) = .error (.cmdError e)) ∧
    (∀ (e : CmdError) (n : String), pool_exists n (.error e) = .ok false) ∧
    (∀ (e : CmdError) (n : String), pool_state n (.error e) = .ok none) ∧
    (∀ (e : CmdError) (n : String), pool_autostart n (.error e) = .ok none) ∧
    (∀ e : CmdError, pool_info (.error e) = []) ∧
    (∀ e : CmdError, list_volumes (.error e) = .ok []) ∧
    (∀ e : CmdError, volume_info (.error e) = []) ∧
    (∀ e : CmdError, get_pool_uuid (.error e) = .error .keyError) ∧
    (∀ b : Bool,
      destroy_pool "p" (.ok "Name State\n----\np active") b = .ok b) := by
  refine ⟨?_, ?_, ?_, ?_, ?_, ?_, ?_, ?_, ?_, ?_, ?_, ?_, ?_, ?_, ?_, ?_,
    ?_, ?_, ?_, ?_, ?_, ?_, ?_⟩ <;> intros <;> rfl

/-! ## Claim C5: `create_volume` re-verifies after a successful create -/

/-- C5: for a volume name not already present (`list_volumes` of the
first query does not contain it), `create_volume` returns `False` when
the `vol-create-as` command fails, and on command success returns `True`
exactly when the re-queried volume list contains the name.  The second
component of the result records that the external command was
invoked. -/
theorem create_volume_reverifies :
    ∀ (name : String) (res1 : Except CmdError String)
      (createRes : Except CmdError Unit) (res2 : Except CmdError String)
      (d1 : PyDict),
      list_volumes res1 = .ok d1 → dictContains d1 name = false →
      ((∀ e, createRes = .error e →
          create_volume name res1 createRes res2 = .ok (false, true)) ∧
       (createRes = .ok () → ∀ d2 : PyDict, list_volumes res2 = .ok d2 →
          create_volume name res1 createRes res2 =
            .ok (dictContains d2 name, true))) := by
  intro name res1 createRes res2 d1 h1 hc
  have hv : volume_exists name res1 = .ok false := by
    simp [volume_exists, h1, hc]
  constructor
  · intro e he
    subst he
    simp [create_volume, hv]
  · intro he d2 h2
    subst he
    have hv2 : volume_exists name res2 = .ok (dictContains d2 name) := by
      simp [volume_exists, h2]
    cases hb : dictContains d2 name <;> simp [create_volume, hv, hv2, hb]

/-- C5 witness: creating `v` against a pool listing only `a`, with a
succeeding command and a re-query that lists `v`. -/
theorem create_volume_reverifies_witness :
    create_volume "v" (.ok "Name Path\n---\n a /p") (.ok ())
      (.ok "Name Path\n---\n v /p") = .ok (true, true) := by
  have h := (create_volume_reverifies "v" (.ok "Name Path\n---\n a /p") (.ok ())
    (.ok "Name Path\n---\n v /p") [("a", "/p")] (by decide) (by decide)).2
    rfl [("v", "/p")] (by decide)
  exact h.trans (by decide)

/-! ## Claim C6: `pool_exists` -/

/-- C6: `pool_exists` returns `False` (without raising) when the
`pool-list` command fails, and otherwise returns exactly the membership
of the name in the dict produced by `list_pools`. -/
theorem pool_exists_iff_listed :
    (∀ (name : String) (e : CmdError), pool_exists name (.error e) = .ok false) ∧
    (∀ (name out : String) (d : List (String × PyDict)),
      list_pools (.ok out) = .ok d →
      pool_exists name (.ok out) = .ok (dictContains d name)) := by
  constructor
  · intro name e
    rfl
  · intro name out d h
    simp [pool_exists, h]

/-- C6 witness: a two-pool table in which `default` is listed. -/
theorem pool_exists_iff_listed_witness :
    pool_exists "default" (.ok "Name State\n----\ndefault active") = .ok true := by
  have h := pool_exists_iff_listed.2 "default" "Name State\n----\ndefault active"
    [("default", [("State", "active")])] (by decide)
  exact h.trans (by decide)

/-! ## Claim C7: no method mutates the object -/

/-- C7: every modelled method of `StoragePool` and `PoolVolume` leaves
the object's fields (including any dynamically added attributes)
unchanged, and the query methods compute their result from the fresh
virsh response alone, so two successive calls each re-derive their
result from their own virsh invocation. -/
theorem methods_preserve_fields :
    (∀ st res, (list_poolsM st res).1 = st) ∧
    (∀ st name res, (pool_existsM st name res).1 = st) ∧
    (∀ st name res, (pool_stateM st name res).1 = st) ∧
    (∀ st name res, (pool_autostartM st name res).1 = st) ∧
    (∀ st res, (pool_infoM st res).1 = st) ∧
    (∀ st res, (get_pool_uuidM st res).1 = st) ∧
    (∀ st name res, (is_pool_activeM st name res).1 = st) ∧
    (∀ st res, (is_pool_persistentM st res).1 = st) ∧
    (∀ st name r1 b r2 r3, (delete_poolM st name r1 b r2 r3).1 = st) ∧
    (∀ st c, (set_pool_autostartM st c).1 = st) ∧
    (∀ st c, (build_poolM st c).1 = st) ∧
    (∀ st name r c, (start_poolM st name r c).1 = st) ∧
    (∀ st name r b, (destroy_poolM st name r b).1 = st) ∧
    (∀ st c, (define_dir_poolM st c).1 = st) ∧
    (∀ st c, (define_fs_poolM st c).1 = st) ∧
    (∀ st c, (define_lvm_poolM st c).1 = st) ∧
    (∀ st c, (define_disk_poolM st c).1 = st) ∧
    (∀ st c, (define_iscsi_poolM st c).1 = st) ∧
    (∀ st c, (define_netfs_poolM st c).1 = st) ∧
    (∀ st c, (define_rbd_poolM st c).1 = st) ∧
    (∀ st res, (list_volumesM st res).1 = st) ∧
    (∀ st name res, (volume_existsM st name res).1 = st) ∧
    (∀ st res, (volume_infoM st res).1 = st) ∧
    (∀ st name r1 c r2, (create_volumeM st name r1 c r2).1 = st) ∧
    (∀ st name r1 c r2, (delete_volumeM st name r1 c r2).1 = st) ∧
    (∀ st o n ra rb c r2, (clone_volumeM st o n ra rb c r2).1 = st) ∧
    (∀ st r1 r2, (list_poolsM (list_poolsM st r1).1 r2).2 = list_pools r2) ∧
    (∀ st r1 r2, (list_volumesM (list_volumesM st r1).1 r2).2 = list_volumes r2) := by
  refine ⟨?_, ?_, ?_, ?_, ?_, ?_, ?_, ?_, ?_, ?_, ?_, ?_, ?_, ?_, ?_, ?_,
    ?_, ?_, ?_, ?_, ?_, ?_, ?_, ?_, ?_, ?_, ?_, ?_⟩ <;> intros <;> rfl

/-! ## Claim C8: `delete_volume` -/

/-- C8: a name absent from the first `list_volumes` query yields `True`
with no `vol-delete` invocation (second component `false`); for a
present name, the result is `True` exactly when the command succeeded
and the fresh re-query no longer lists the volume. -/
theorem delete_volume_checks :
    ∀ (name : String) (res1 : Except CmdError String)
      (delRes : Except CmdError Unit) (res2 : Except CmdError String)
      (d1 : PyDict),
      list_volumes res1 = .ok d1 →
      ((dictContains d1 name = false →
          delete_volume name res1 delRes res2 = .ok (true, false)) ∧
       (dictContains d1 name = true →
          (∀ e, delRes = .error e →
            delete_volume name res1 delRes res2 = .ok (false, true)) ∧
          (delRes = .ok () → ∀ d2 : PyDict, list_volumes res2 = .ok d2 →
            delete_volume name res1 delRes res2 =
              .ok (!(dictContains d2 name), true)))) := by
  intro name res1 delRes res2 d1 h1
  constructor
  · intro hc
    have hv : volume_exists name res1 = .ok false := by
      simp [volume_exists, h1, hc]
    simp [delete_volume, hv]
  · intro hc
    have hv : volume_exists name res1 = .ok true := by
      simp [volume_exists, h1, hc]
    constructor
    · intro e he
      subst he
      simp [delete_volume, hv]
    · intro he d2 h2
      subst he
      have hv2 : volume_exists name res2 = .ok (dictContains d2 name) := by
        simp [volume_exists, h2]
      cases hb : dictContains d2 name <;> simp [delete_volume, hv, hv2, hb]

/-- C8 witness: deleting a volume that is not listed returns `True` and
never invokes `vol-delete` (even though the supplied command outcome is
a failure). -/
theorem delete_volume_checks_witness :
    delete_volume "v" (.ok "Name Path\n---\n a /p") (.error ⟨"boom"⟩) (.ok "") =
      .ok (true, false) := by
  have h := (delete_volume_checks "v" (.ok "Name Path\n---\n a /p")
    (.error ⟨"boom"⟩) (.ok "") [("a", "/p")] (by decide)).1 (by decide)
  exact h

/-! ## Claim C9: `create_volume` on an existing name -/

/-- C9: a name already present in the first `list_volumes` query makes
`create_volume` return `False` with no `vol-create-as` invocation
(second component `false`), regardless of the supplied command
outcome. -/
theorem create_volume_existing_noop :
    ∀ (name : String) (res1 : Except CmdError String)
      (createRes : Except CmdError Unit) (res2 : Except CmdError String)
      (d1 : PyDict),
      list_volumes res1 = .ok d1 → dictContains d1 name = true →
      create_volume name res1 createRes res2 = .ok (false, false) := by
  intro name res1 createRes res2 d1 h1 hc
  have hv : volume_exists name res1 = .ok true := by
    simp [volume_exists, h1, hc]
  simp [create_volume, hv]

/-- C9 witness: creating `a`, already listed, with a failing command
outcome that is never consulted. -/
theorem create_volume_existing_noop_witness :
    create_volume "a" (.ok "Name Path\n---\n a /p") (.error ⟨"boom"⟩) (.ok "") =
      .ok (false, false) :=
  create_volume_existing_noop "a" (.ok "Name Path\n---\n a /p")
    (.error ⟨"boom"⟩) (.ok "") [("a", "/p")] (by decide) (by decide)

/-! ## Claim C3: `pool_info` -/

/-- Folding the `pool_info` line handler over all lines equals folding
the two-part handler over just the lines that split on `":"` into
exactly two parts. -/
theorem foldl_filter_colon (ls : List (List Char)) (info : PyDict) :
    List.foldl
      (fun info l =>
        match pySplit [':'] l with
        | [a, b] => dictSet info ⟨pyStrip a⟩ ⟨pyStrip b⟩
        | _ => info)
      info ls =
    List.foldl
      (fun info l =>
        dictSet info ⟨pyStrip ((pySplit [':'] l).headD [])⟩
          ⟨pyStrip ((pySplit [':'] l).getLastD [])⟩)
      info (ls.filter (fun l => (pySplit [':'] l).length == 2)) := by
  induction ls generalizing info with
  | nil => rfl
  | cons l ls ih =>
    rcases h : pySplit [':'] l with _ | ⟨a, _ | ⟨b, _ | ⟨c, t⟩⟩⟩ <;>
      simp [List.filter_cons, h, ih, List.getLastD]

/-- C3: `pool_info` returns the empty dict when the command fails, and
otherwise contains exactly one entry per stdout line that splits on
`":"` into two parts, mapping the stripped left part to the stripped
right part; every other line is ignored. -/
theorem pool_info_colon_lines (res : Except CmdError String) :
    pool_info res = specPoolInfo res := by
  cases res with
  | error e => rfl
  | ok out => exact foldl_filter_colon (splitlines out.data) []

/-! ## Claim C1: `list_pools` -/

/-- An in-range index has a value. -/
theorem nth?_isSome {α : Type} :
    ∀ (l : List α) (n : Nat), n < l.length → ∃ v, nth? l n = some v := by
  intro l
  induction l with
  | nil => intro n h; simp at h
  | cons a l ih =>
    intro n h
    cases n with
    | zero => exact ⟨a, rfl⟩
    | succ n => exact ih n (by simpa using h)

/-- `lpGo` never raises when every enumerated index is in range: it
computes the loop-carried name and details dict. -/
theorem lpGo_eq (fields : List (List Char)) :
    ∀ (ecols : List (Nat × List Char)) (pn : Option String) (acc : PyDict),
      (∀ p ∈ ecols, p.1 < fields.length) →
      lpGo fields ecols pn acc =
        match lastNm fields ecols pn with
        | some n => .ok (n, valFold fields ecols acc)
        | none => .error .nameError := by
  intro ecols
  induction ecols with
  | nil =>
    intro pn acc _
    cases pn <;> rfl
  | cons p rest ih =>
    intro pn acc hin
    obtain ⟨v, hv⟩ := nth?_isSome fields p.1 (hin p (by simp))
    have hvD : nthD fields p.1 [] = v := by simp [nthD, hv]
    have hrest : ∀ q ∈ rest, q.1 < fields.length := fun q hq => hin q (by simp [hq])
    by_cases hm : matchesName p.2
    · simp only [lpGo, hv, hm, if_true, ih _ _ hrest, lastNm, valFold,
        List.foldl_cons, hvD]
    · simp only [lpGo, hv, hm, if_false, Bool.false_eq_true, ih _ _ hrest,
        lastNm, valFold, List.foldl_cons, hvD]

/-- With no matching column among `ecols`, the loop-carried name is
untouched. -/
theorem lastNm_no_match (fields : List (List Char)) :
    ∀ (ecols : List (Nat × List Char)) (pn : Option String),
      ecols.filter (fun p => matchesName p.2) = [] →
      lastNm fields ecols pn = pn := by
  intro ecols
  induction ecols with
  | nil => intro pn _; rfl
  | cons p rest ih =>
    intro pn hf
    rw [List.filter_cons] at hf
    by_cases hm : matchesName p.2
    · simp [hm] at hf
    · simp only [lastNm, List.foldl_cons, hm, if_false, Bool.false_eq_true]
      simp only [hm, Bool.false_eq_true, if_false] at hf
      exact ih pn hf

/-- With exactly one matching column `(i, c)`, the loop-carried name
ends as the field at index `i`. -/
theorem lastNm_unique (fields : List (List Char)) :
    ∀ (ecols : List (Nat × List Char)) (pn : Option String) (i : Nat)
      (c : List Char),
      ecols.filter (fun p => matchesName p.2) = [(i, c)] →
      lastNm fields ecols pn = some ⟨nthD fields i []⟩ := by
  intro ecols
  induction ecols with
  | nil => intro pn i c hf; simp at hf
  | cons p rest ih =>
    intro pn i c hf
    rw [List.filter_cons] at hf
    by_cases hm : matchesName p.2
    · simp only [hm, if_true] at hf
      obtain ⟨hp, hrest⟩ := List.cons_eq_cons.mp hf
      simp only [lastNm, List.foldl_cons, hm, if_true]
      have h2 := lastNm_no_match fields rest (some ⟨nthD fields p.1 []⟩) hrest
      simp only [lastNm] at h2
      rw [h2, hp]
    · simp only [hm, Bool.false_eq_true, if_false] at hf
      simp only [lastNm, List.foldl_cons, hm, Bool.false_eq_true, if_false]
      exact ih pn i c hf

/-- Indices produced by `enum'` are bounded. -/
theorem enum'_bounds {α : Type} :
    ∀ (l : List α) (n : Nat) (p : Nat × α), p ∈ enum' n l → p.1 < n + l.length := by
  intro l
  induction l with
  | nil => intro n p hp; simp [enum'] at hp
  | cons a l ih =>
    intro n p hp
    simp only [enum', List.mem_cons] at hp
    rcases hp with hp | hp
    · subst hp; simp
    · have := ih (n + 1) p hp
      simp only [List.length_cons]
      omega

/-- One `pool-list` data line, under the claim's provisos: it yields the
spec-side key and value. -/
theorem lpLine_eq (headCols fields : List (List Char)) (i : Nat) (c : List Char)
    (hf : (enum' 0 headCols).filter (fun p => matchesName p.2) = [(i, c)])
    (hlen : headCols.length ≤ fields.length) :
    lpLine headCols fields =
      .ok (specPoolKey headCols fields, specPoolVal headCols fields) := by
  have hin : ∀ p ∈ enum' 0 headCols, p.1 < fields.length := by
    intro p hp
    have := enum'_bounds headCols 0 p hp
    omega
  unfold lpLine
  rw [lpGo_eq fields _ none [] hin, lastNm_unique fields _ none i c hf]
  simp [specPoolKey, specPoolVal, specNameIdxs, hf, valFold]

/-- The `list_pools` line loop, under the claim's provisos. -/
theorem lpLines_eq (headCols : List (List Char)) (i : Nat) (c : List Char)
    (hf : (enum' 0 headCols).filter (fun p => matchesName p.2) = [(i, c)]) :
    ∀ (ls : List (List Char)) (pools : List (String × PyDict)),
      (∀ l ∈ ls, headCols.length ≤ (pySplitWS l).length) →
      lpLines headCols ls pools =
        .ok (ls.foldl
          (fun pools l =>
            dictSet pools (specPoolKey headCols (pySplitWS l))
              (specPoolVal headCols (pySplitWS l))) pools) := by
  intro ls
  induction ls with
  | nil => intro pools _; rfl
  | cons l ls ih =>
    intro pools h
    have hl := lpLine_eq headCols (pySplitWS l) i c hf (h l (by simp))
    simp only [lpLines, hl, List.foldl_cons]
    exact ih _ (fun q hq => h q (by simp [hq]))

/-- C1 (amended): with two or fewer stripped stdout lines `list_pools`
returns the empty dict; otherwise, provided the header has exactly one
column matching `[N|n]ame` and every data line has at least as many
whitespace-separated fields as the header, the first line is the header,
the second is skipped, and each remaining line yields one entry whose
key is the field at the matching column's index and whose value maps
every other header column name to the line's field at that column's
index.  (Without the provisos the subscript `details[index]` raises
`IndexError`, see the counterexample.) -/
theorem list_pools_parses_table (out : String) :
    ((splitlines (pyStrip out.data)).length ≤ 2 → list_pools (.ok out) = .ok []) ∧
    (∀ (i : Nat) (c : List Char),
      (enum' 0 (pySplitWS ((splitlines (pyStrip out.data)).headD []))).filter
          (fun p => matchesName p.2) = [(i, c)] →
      (∀ l ∈ (splitlines (pyStrip out.data)).drop 2,
        (pySplitWS ((splitlines (pyStrip out.data)).headD [])).length ≤
          (pySplitWS l).length) →
      list_pools (.ok out) = .ok (specListPools out)) := by
  constructor
  · intro h
    simp [list_pools, h]
  · intro i c hf hw
    by_cases h2 : (splitlines (pyStrip out.data)).length ≤ 2
    · simp [list_pools, specListPools, h2]
    · simp only [list_pools, specListPools, if_neg h2]
      exact lpLines_eq _ i c hf _ [] hw

/-- C1 witness: a well-formed two-pool `pool-list --all` table. -/
theorem list_pools_parses_table_witness :
    list_pools (.ok "Name State Autostart\n-----\ndefault active yes\nimg inactive no") =
      .ok (specListPools
        "Name State Autostart\n-----\ndefault active yes\nimg inactive no") :=
  (list_pools_parses_table
    "Name State Autostart\n-----\ndefault active yes\nimg inactive no").2
    0 "Name".data (by decide) (by decide)

/-! ## Claim C1 counterexample -/

/-- C1 counterexample: on the stdout `"Name State\n-----\npool1"` the
stripped text has three lines, but the data line has fewer
whitespace-separated fields than the header, so `details[index]` raises
`IndexError` and no dict is returned — the claim promised an entry for
every remaining line. -/
theorem list_pools_short_line_raises :
    list_pools (.ok "Name State\n-----\npool1") = .error .indexError := by
  decide

/-! ## Splitting lemmas (towards C10) -/

/-- `leadsWith` is list-prefix agreement. -/
theorem leadsWith_iff :
    ∀ (s l : List Char), leadsWith s l = true ↔ ∃ t, l = s ++ t := by
  intro s
  induction s with
  | nil =>
    intro l
    simp [leadsWith]
  | cons a as ih =>
    intro l
    cases l with
    | nil =>
      simp [leadsWith]
    | cons b bs =>
      simp only [leadsWith, Bool.and_eq_true, decide_eq_true_eq, ih,
        List.cons_append, List.cons_eq_cons]
      constructor
      · rintro ⟨h, t, ht⟩
        exact ⟨t, h.symm, ht⟩
      · rintro ⟨t, h, ht⟩
        exact ⟨h.symm, t, ht⟩

/-- A positive skip counter just drops that many characters. -/
theorem pySplitGo_skip (s0 : Char) (srest : List Char) :
    ∀ (l : List Char) (k : Nat) (cur : List Char),
      pySplitGo s0 srest k cur l = pySplitGo s0 srest 0 cur (l.drop k) := by
  intro l
  induction l with
  | nil =>
    intro k cur
    cases k <;> rfl
  | cons c rest ih =>
    intro k cur
    cases k with
    | zero => rfl
    | succ k =>
      show pySplitGo s0 srest k cur rest = _
      rw [List.drop_succ_cons]
      exact ih k cur

/-- Master equation for the splitter: one step per first occurrence of
the separator. -/
theorem pySplitGo_first (s0 : Char) (srest : List Char) :
    ∀ (l cur : List Char),
      pySplitGo s0 srest 0 cur l =
        match subFirstIdx (s0 :: srest) l with
        | none => [cur.reverse ++ l]
        | some j =>
            (cur.reverse ++ l.take j) ::
              pySplitGo s0 srest 0 [] (l.drop (j + (s0 :: srest).length)) := by
  intro l
  induction l with
  | nil =>
    intro cur
    simp [pySplitGo, subFirstIdx, leadsWith]
  | cons c rest ih =>
    intro cur
    by_cases h : leadsWith (s0 :: srest) (c :: rest) = true
    · show (if leadsWith (s0 :: srest) (c :: rest) then
            cur.reverse :: pySplitGo s0 srest srest.length [] rest
          else pySplitGo s0 srest 0 (c :: cur) rest) = _
      rw [if_pos h, pySplitGo_skip s0 srest rest srest.length []]
      have hd : (c :: rest).drop (0 + (s0 :: srest).length) = rest.drop srest.length := by
        simp [List.length_cons, List.drop_succ_cons]
      simp [subFirstIdx, h, hd]
    · show (if leadsWith (s0 :: srest) (c :: rest) then
            cur.reverse :: pySplitGo s0 srest srest.length [] rest
          else pySplitGo s0 srest 0 (c :: cur) rest) = _
      rw [if_neg h, ih (c :: cur)]
      cases hf : subFirstIdx (s0 :: srest) rest with
      | none =>
        simp [subFirstIdx, h, hf, List.reverse_cons, List.append_assoc]
      | some j =>
        have hd : (c :: rest).drop (j + 1 + (srest.length + 1)) =
            rest.drop (j + (srest.length + 1)) := by
          have h2 : j + 1 + (srest.length + 1) = (j + (srest.length + 1)) + 1 := by
            omega
          rw [h2, List.drop_succ_cons]
        simp [subFirstIdx, h, hf, List.reverse_cons, List.append_assoc,
          List.take_succ_cons]
        rw [hd]

/-- The splitter never produces the empty list. -/
theorem pySplit_ne_nil (sep l : List Char) : pySplit sep l ≠ [] := by
  cases sep with
  | nil => simp [pySplit]
  | cons s0 srest =>
    show pySplitGo s0 srest 0 [] l ≠ []
    rw [pySplitGo_first]
    cases h : subFirstIdx (s0 :: srest) l <;> simp

/-- `getLastD` of a non-empty list ignores the default. -/
theorem getLastD_irrel {α : Type} (l : List α) (d₁ d₂ : α) (h : l ≠ []) :
    l.getLastD d₁ = l.getLastD d₂ := by
  cases l with
  | nil => exact absurd rfl h
  | cons a l => rw [List.getLastD_cons, List.getLastD_cons]

/-- A first-occurrence index really is an occurrence. -/
theorem subFirstIdx_occ (sep : List Char) :
    ∀ (l : List Char) (j : Nat),
      subFirstIdx sep l = some j → leadsWith sep (l.drop j) = true := by
  intro l
  induction l with
  | nil =>
    intro j h
    simp only [subFirstIdx] at h
    by_cases hl : leadsWith sep [] = true
    · rw [if_pos hl] at h
      cases h
      simpa using hl
    · rw [if_neg hl] at h
      cases h
  | cons c rest ih =>
    intro j h
    simp only [subFirstIdx] at h
    by_cases hl : leadsWith sep (c :: rest) = true
    · rw [if_pos hl] at h
      cases h
      simpa using hl
    · rw [if_neg hl] at h
      cases hf : subFirstIdx sep rest with
      | none =>
        rw [hf] at h
        simp at h
      | some j' =>
        rw [hf] at h
        simp only [Option.map_some'] at h
        cases h
        rw [List.drop_succ_cons]
        exact ih j' hf

/-- Before the first occurrence there is no occurrence. -/
theorem subFirstIdx_min (sep : List Char) :
    ∀ (l : List Char) (j : Nat), subFirstIdx sep l = some j →
      ∀ k, k < j → leadsWith sep (l.drop k) = false := by
  intro l
  induction l with
  | nil =>
    intro j h k hk
    simp only [subFirstIdx] at h
    by_cases hl : leadsWith sep [] = true
    · rw [if_pos hl] at h
      cases h
      omega
    · rw [if_neg hl] at h
      cases h
  | cons c rest ih =>
    intro j h k hk
    simp only [subFirstIdx] at h
    by_cases hl : leadsWith sep (c :: rest) = true
    · rw [if_pos hl] at h
      cases h
      omega
    · rw [if_neg hl] at h
      cases hf : subFirstIdx sep rest with
      | none =>
        rw [hf] at h
        simp at h
      | some j' =>
        rw [hf] at h
        simp only [Option.map_some'] at h
        cases h
        cases k with
        | zero =>
          simpa using Bool.eq_false_iff.mpr hl
        | succ k =>
          rw [List.drop_succ_cons]
          exact ih j' hf k (by omega)

/-- With no first occurrence there is no occurrence anywhere. -/
theorem subFirstIdx_none_occ (s0 : Char) (srest : List Char) :
    ∀ (l : List Char), subFirstIdx (s0 :: srest) l = none →
      ∀ k, leadsWith (s0 :: srest) (l.drop k) = false := by
  intro l
  induction l with
  | nil =>
    intro _ k
    rw [List.drop_nil]
    rfl
  | cons c rest ih =>
    intro h k
    simp only [subFirstIdx] at h
    by_cases hl : leadsWith (s0 :: srest) (c :: rest) = true
    · rw [if_pos hl] at h
      cases h
    · rw [if_neg hl] at h
      have hrest : subFirstIdx (s0 :: srest) rest = none := by
        cases hf : subFirstIdx (s0 :: srest) rest with
        | none => rfl
        | some j =>
          rw [hf] at h
          simp at h
      cases k with
      | zero =>
        simpa using Bool.eq_false_iff.mpr hl
      | succ k =>
        rw [List.drop_succ_cons]
        exact ih hrest k

/-- `lastHitFrom … = none` bounds: no occurrence up to `n`. -/
theorem lastHitFrom_none (sep l : List Char) :
    ∀ n, lastHitFrom sep l n = none →
      ∀ j, j ≤ n → leadsWith sep (l.drop j) = false := by
  intro n
  induction n with
  | zero =>
    intro h j hj
    interval_cases j
    simp only [lastHitFrom] at h
    by_cases hc : leadsWith sep l = true
    · rw [if_pos hc] at h
      cases h
    · rw [if_neg hc] at h
      simpa using Bool.eq_false_iff.mpr hc
  | succ n ih =>
    intro h j hj
    simp only [lastHitFrom] at h
    by_cases hc : leadsWith sep (l.drop (n + 1)) = true
    · rw [if_pos hc] at h
      cases h
    · rw [if_neg hc] at h
      rcases Nat.lt_or_ge j (n + 1) with hlt | hge
      · exact ih h j (by omega)
      · have : j = n + 1 := by omega
        subst this
        exact Bool.eq_false_iff.mpr hc

/-- A `lastHitFrom` hit is an occurrence, in range, and maximal. -/
theorem lastHitFrom_some (sep l : List Char) :
    ∀ n j, lastHitFrom sep l n = some j →
      leadsWith sep (l.drop j) = true ∧ j ≤ n ∧
        ∀ k, j < k → k ≤ n → leadsWith sep (l.drop k) = false := by
  intro n
  induction n with
  | zero =>
    intro j h
    simp only [lastHitFrom] at h
    by_cases hc : leadsWith sep l = true
    · rw [if_pos hc] at h
      cases h
      exact ⟨by simpa using hc, le_refl 0, fun k h1 h2 => by omega⟩
    · rw [if_neg hc] at h
      cases h
  | succ n ih =>
    intro j h
    simp only [lastHitFrom] at h
    by_cases hc : leadsWith sep (l.drop (n + 1)) = true
    · rw [if_pos hc] at h
      cases h
      exact ⟨hc, le_refl _, fun k h1 h2 => by omega⟩
    · rw [if_neg hc] at h
      obtain ⟨h1, h2, h3⟩ := ih j h
      refine ⟨h1, by omega, fun k hk1 hk2 => ?_⟩
      rcases Nat.lt_or_ge k (n + 1) with hlt | hge
      · exact h3 k hk1 (by omega)
      · have : k = n + 1 := by omega
        subst this
        exact Bool.eq_false_iff.mpr hc

/-- An occurrence below the scan bound forces a hit at least as far. -/
theorem lastHitFrom_ge (sep l : List Char) :
    ∀ n j, j ≤ n → leadsWith sep (l.drop j) = true →
      ∃ j', lastHitFrom sep l n = some j' ∧ j ≤ j' := by
  intro n
  induction n with
  | zero =>
    intro j hj hocc
    interval_cases j
    refine ⟨0, ?_, le_refl 0⟩
    simp only [lastHitFrom]
    rw [if_pos (by simpa using hocc)]
  | succ n ih =>
    intro j hj hocc
    simp only [lastHitFrom]
    by_cases hc : leadsWith sep (l.drop (n + 1)) = true
    · exact ⟨n + 1, by rw [if_pos hc], by omega⟩
    · rw [if_neg hc]
      rcases Nat.lt_or_ge j (n + 1) with hlt | hge
      · exact ih j (by omega) hocc
      · have : j = n + 1 := by omega
        subst this
        exact absurd hocc hc

/-- No occurrence up to the bound forces `lastHitFrom … = none`. -/
theorem lastHitFrom_none_of (sep l : List Char) :
    ∀ n, (∀ j, j ≤ n → leadsWith sep (l.drop j) = false) →
      lastHitFrom sep l n = none := by
  intro n
  induction n with
  | zero =>
    intro h
    have h0 : leadsWith sep l = false := by simpa using h 0 (le_refl 0)
    simp [lastHitFrom, h0]
  | succ n ih =>
    intro h
    have hc : leadsWith sep (l.drop (n + 1)) = false := h (n + 1) (le_refl _)
    simp only [lastHitFrom, hc, Bool.false_eq_true, if_false]
    exact ih (fun j hj => h j (by omega))

/-- No first occurrence means no last occurrence. -/
theorem subLastIdx_first_none (s0 : Char) (srest l : List Char)
    (h : subFirstIdx (s0 :: srest) l = none) :
    subLastIdx (s0 :: srest) l = none :=
  lastHitFrom_none_of _ _ _ (fun j _ => subFirstIdx_none_occ s0 srest l h j)

/-- Occurrences of `a ++ [':']` with `':' ∉ a` cannot overlap: an
overlap would force a proper prefix of `a` to end in `':'`. -/
theorem no_overlap_colon (a : List Char) (ha : ':' ∉ a) (l : List Char)
    (j p : Nat) (hj : leadsWith (a ++ [':']) (l.drop j) = true)
    (hp : leadsWith (a ++ [':']) (l.drop p) = true)
    (h1 : j < p) (h2 : p < j + (a ++ [':']).length) : False := by
  have hslen : (a ++ [':']).length = a.length + 1 := by simp
  obtain ⟨u, hu⟩ := (leadsWith_iff _ _).mp hj
  have hdp : l.drop p = (a ++ [':']).drop (p - j) ++ u := by
    have h3 : l.drop p = (l.drop j).drop (p - j) := by
      rw [List.drop_drop]
      congr 1
      omega
    rw [h3, hu, List.drop_append_eq_append_drop]
    have h4 : p - j - (a ++ [':']).length = 0 := by omega
    rw [h4, List.drop_zero]
  rw [hdp] at hp
  obtain ⟨w, hw⟩ := (leadsWith_iff _ _).mp hp
  have hlen1 : ((a ++ [':']).drop (p - j)).length = (a ++ [':']).length - (p - j) :=
    List.length_drop _ _
  have hkey : (a ++ [':']).take ((a ++ [':']).length - (p - j)) =
      (a ++ [':']).drop (p - j) := by
    have h5 := List.take_left ((a ++ [':']).drop (p - j)) u
    rw [hw, hlen1, List.take_append_eq_append_take] at h5
    have h6 : (a ++ [':']).length - (p - j) - (a ++ [':']).length = 0 := by omega
    rw [h6, List.take_zero, List.append_nil] at h5
    exact h5
  have hc1 : ':' ∈ (a ++ [':']).drop (p - j) := by
    rw [List.drop_append_eq_append_drop]
    have h7 : p - j - a.length = 0 := by omega
    rw [h7, List.drop_zero]
    simp
  rw [← hkey] at hc1
  have hc2 : ':' ∈ a.take ((a ++ [':']).length - (p - j)) := by
    rw [List.take_append_eq_append_take] at hc1
    have h8 : (a ++ [':']).length - (p - j) - a.length = 0 := by omega
    rw [h8, List.take_zero, List.append_nil] at hc1
    exact hc1
  exact ha (List.take_subset _ _ hc2)

/-- Stepping the last-occurrence index over the first occurrence of a
border-free separator `a ++ [':']`. -/
theorem subLastIdx_step (a l : List Char) (ha : ':' ∉ a) (j : Nat)
    (hfi : subFirstIdx (a ++ [':']) l = some j) :
    subLastIdx (a ++ [':']) l =
      some (match subLastIdx (a ++ [':']) (l.drop (j + (a ++ [':']).length)) with
            | none => j
            | some k => j + (a ++ [':']).length + k) := by
  have hslen : (a ++ [':']).length = a.length + 1 := by simp
  have hj := subFirstIdx_occ _ l j hfi
  obtain ⟨u, hu⟩ := (leadsWith_iff _ _).mp hj
  have hdj : (l.drop j).length = l.length - j := List.length_drop _ _
  have hulen : (l.drop j).length = (a ++ [':']).length + u.length := by
    rw [hu, List.length_append]
  have hl'len : (l.drop (j + (a ++ [':']).length)).length =
      l.length - (j + (a ++ [':']).length) := List.length_drop _ _
  have hshift : ∀ k, ((l.drop (j + (a ++ [':']).length)).drop k) =
      l.drop (j + (a ++ [':']).length + k) := by
    intro k
    rw [List.drop_drop]
  cases h' : subLastIdx (a ++ [':']) (l.drop (j + (a ++ [':']).length)) with
  | none =>
    have h'' : lastHitFrom (a ++ [':']) (l.drop (j + (a ++ [':']).length))
        (l.drop (j + (a ++ [':']).length)).length = none := h'
    obtain ⟨j', hj'eq, hjj'⟩ :=
      lastHitFrom_ge (a ++ [':']) l l.length j (by omega) hj
    obtain ⟨hocc', hj'le, _⟩ := lastHitFrom_some (a ++ [':']) l l.length j' hj'eq
    have hj'j : j' = j := by
      by_contra hne
      have hlt : j < j' := by omega
      rcases Nat.lt_or_ge j' (j + (a ++ [':']).length) with hcase | hcase
      · exact no_overlap_colon a ha l j j' hj hocc' hlt hcase
      · have hk := lastHitFrom_none _ _ _ h''
          (j' - (j + (a ++ [':']).length)) (by omega)
        rw [hshift] at hk
        have h9 : j + (a ++ [':']).length + (j' - (j + (a ++ [':']).length)) = j' := by
          omega
        rw [h9, hocc'] at hk
        simp at hk
    show lastHitFrom (a ++ [':']) l l.length = some _
    rw [hj'eq, hj'j]
  | some k =>
    have h'' : lastHitFrom (a ++ [':']) (l.drop (j + (a ++ [':']).length))
        (l.drop (j + (a ++ [':']).length)).length = some k := h'
    obtain ⟨hocck, hkle, hmax'⟩ := lastHitFrom_some _ _ _ k h''
    rw [hshift] at hocck
    have hple : j + (a ++ [':']).length + k ≤ l.length := by omega
    obtain ⟨j'', hj''eq, hpj''⟩ := lastHitFrom_ge _ l l.length _ hple hocck
    obtain ⟨hoccj'', hj''le, _⟩ := lastHitFrom_some _ _ _ _ hj''eq
    have hj''p : j'' = j + (a ++ [':']).length + k := by
      by_contra hne
      have hgt : j + (a ++ [':']).length + k < j'' := by omega
      have hk'' := hmax' (j'' - (j + (a ++ [':']).length)) (by omega) (by omega)
      rw [hshift] at hk''
      have h9 : j + (a ++ [':']).length + (j'' - (j + (a ++ [':']).length)) = j'' := by
        omega
      rw [h9, hoccj''] at hk''
      simp at hk''
    show lastHitFrom (a ++ [':']) l l.length = some _
    rw [hj''eq, hj''p]

/-- The last fragment of `str.split` on a border-free separator
`a ++ [':']` is the text after the last occurrence (the whole string
when there is none). -/
theorem pySplit_getLast (a : List Char) (ha : ':' ∉ a) :
    ∀ (n : Nat) (l : List Char), l.length ≤ n →
      (pySplit (a ++ [':']) l).getLastD [] =
        match subLastIdx (a ++ [':']) l with
        | none => l
        | some j => l.drop (j + (a ++ [':']).length) := by
  intro n
  induction n with
  | zero =>
    intro l hl
    have hl0 : l = [] := List.eq_nil_of_length_eq_zero (by omega)
    subst hl0
    obtain ⟨s0, srest, hcons⟩ : ∃ s0 srest, a ++ [':'] = s0 :: srest := by
      cases a with
      | nil => exact ⟨':', [], rfl⟩
      | cons x xs => exact ⟨x, xs ++ [':'], rfl⟩
    have h1 : subFirstIdx (s0 :: srest) [] = none := by
      simp [subFirstIdx, leadsWith]
    have hnone : subLastIdx (a ++ [':']) [] = none := by
      rw [hcons]
      exact subLastIdx_first_none s0 srest [] h1
    have hsp : pySplit (a ++ [':']) [] = [[]] := by
      rw [hcons]
      rfl
    rw [hsp, hnone]
    rfl
  | succ n ih =>
    intro l hl
    obtain ⟨s0, srest, hcons⟩ : ∃ s0 srest, a ++ [':'] = s0 :: srest := by
      cases a with
      | nil => exact ⟨':', [], rfl⟩
      | cons x xs => exact ⟨x, xs ++ [':'], rfl⟩
    have hps : ∀ l' : List Char,
        pySplit (a ++ [':']) l' = pySplitGo s0 srest 0 [] l' := by
      intro l'
      rw [hcons]
      rfl
    cases hfi : subFirstIdx (a ++ [':']) l with
    | none =>
      have hfi' : subFirstIdx (s0 :: srest) l = none := by
        rw [← hcons]
        exact hfi
      have hnone : subLastIdx (a ++ [':']) l = none := by
        rw [hcons]
        exact subLastIdx_first_none s0 srest l hfi'
      rw [hps l, pySplitGo_first, ← hcons, hnone]
      simp [hfi]
    | some j =>
      have hj := subFirstIdx_occ _ l j hfi
      obtain ⟨u, hu⟩ := (leadsWith_iff _ _).mp hj
      have hslen : (a ++ [':']).length = a.length + 1 := by simp
      have hdj : (l.drop j).length = l.length - j := List.length_drop _ _
      have hulen : (l.drop j).length = (a ++ [':']).length + u.length := by
        rw [hu, List.length_append]
      have hlen' : (l.drop (j + (a ++ [':']).length)).length ≤ n := by
        rw [List.length_drop]
        omega
      rw [hps l, pySplitGo_first, ← hcons]
      simp only [hfi, List.nil_append, List.reverse_nil]
      rw [List.getLastD_cons]
      have hne : pySplitGo s0 srest 0 [] (l.drop (j + (a ++ [':']).length)) ≠ [] := by
        rw [← hps]
        exact pySplit_ne_nil _ _
      rw [getLastD_irrel _ _ [] hne, ← hps, ih _ hlen',
        subLastIdx_step a l ha j hfi]
      cases h' : subLastIdx (a ++ [':']) (l.drop (j + (a ++ [':']).length)) with
      | none => simp [h']
      | some k =>
        simp only [h']
        rw [List.drop_drop]
        have harith : j + (a ++ [':']).length + (k + (a ++ [':']).length) =
            j + (a ++ [':']).length + k + (a ++ [':']).length := by
          omega
        rw [harith]

/-- A colon-free string is its own colon-prefix. -/
theorem takeWhile_of_no_colon :
    ∀ l : List Char, (∀ k, leadsWith [':'] (l.drop k) = false) →
      l.takeWhile (fun c => c != ':') = l := by
  intro l
  induction l with
  | nil => intro _; rfl
  | cons c rest ih =>
    intro h
    have h0 := h 0
    rw [List.drop_zero] at h0
    have hc : c ≠ ':' := by
      intro he
      subst he
      simp [leadsWith] at h0
    rw [List.takeWhile_cons, if_pos (by simp [bne_iff_ne]; exact hc)]
    rw [ih (fun k => by have h1 := h (k + 1); rwa [List.drop_succ_cons] at h1)]

/-- Up to the first colon, `takeWhile` is `take`. -/
theorem takeWhile_first_colon :
    ∀ (l : List Char) (j : Nat), subFirstIdx [':'] l = some j →
      l.takeWhile (fun c => c != ':') = l.take j := by
  intro l
  induction l with
  | nil =>
    intro j h
    simp [subFirstIdx, leadsWith] at h
  | cons c rest ih =>
    intro j h
    simp only [subFirstIdx] at h
    by_cases hl : leadsWith [':'] (c :: rest) = true
    · rw [if_pos hl] at h
      cases h
      have hc : ':' = c := by simpa [leadsWith] using hl
      subst hc
      simp [List.takeWhile_cons]
    · rw [if_neg hl] at h
      cases hf : subFirstIdx [':'] rest with
      | none =>
        rw [hf] at h
        simp at h
      | some j' =>
        rw [hf] at h
        simp only [Option.map_some'] at h
        cases h
        have hc : c ≠ ':' := by
          intro he
          subst he
          simp [leadsWith] at hl
        rw [List.takeWhile_cons, if_pos (by simp [bne_iff_ne]; exact hc),
          List.take_succ_cons, ih j' hf]

/-- The first fragment of splitting on `":"` is the text before the
first colon. -/
theorem volLine_key (l : List Char) :
    (pySplit [':'] l).headD [] = beforeFirstColon l := by
  show (pySplitGo ':' [] 0 [] l).headD [] = _
  rw [pySplitGo_first]
  cases hfi : subFirstIdx [':'] l with
  | none =>
    simp only [hfi, List.headD_cons, List.reverse_nil, List.nil_append,
      beforeFirstColon]
    rw [takeWhile_of_no_colon l (subFirstIdx_none_occ ':' [] l hfi)]
  | some j =>
    simp only [hfi, List.headD_cons, List.reverse_nil, List.nil_append,
      beforeFirstColon]
    rw [takeWhile_first_colon l j hfi]

/-- The attribute prefix contains no colon. -/
theorem colon_not_mem_beforeFirstColon (l : List Char) :
    ':' ∉ beforeFirstColon l := by
  intro h
  have := List.mem_takeWhile_imp h
  simp at this

/-- Per-line value of `volume_info` equals the amended (last-occurrence)
spec value. -/
theorem volLine_val (l : List Char) :
    pyStrip ((pySplit (beforeFirstColon l ++ [':']) l).getLastD []) =
      specVolValLast l := by
  rw [pySplit_getLast (beforeFirstColon l) (colon_not_mem_beforeFirstColon l)
    l.length l (le_refl _)]
  simp only [specVolValLast]
  cases h' : subLastIdx (beforeFirstColon l ++ [':']) l <;> simp [h']

/-- C10 (amended): `volume_info` maps, for every line of the stripped
stdout, the text before the line's first `:` to the stripped text
following the *last* occurrence of the attribute name immediately
followed by `:` (the stripped line when there is no such occurrence);
the command-failure case gives the empty dict. -/
theorem volume_info_last_occurrence (res : Except CmdError String) :
    volume_info res = specVolumeInfoLast res := by
  cases res with
  | error e => rfl
  | ok out =>
    simp only [volume_info, specVolumeInfoLast]
    apply List.foldl_ext
    intro acc l _
    rw [volLine_key, volLine_val]

/-! ## Claim C10 counterexample -/

/-- C10 counterexample: on the vol-info line `a:a:b` the attribute is
`a` and the code takes `line.split("a:")[-1]`, the text after the *last*
occurrence (`"b"`), while the claim's "first occurrence" reading yields
`"a:b"`. -/
theorem volume_info_not_first_occurrence :
    volume_info (.ok "a:a:b") ≠ specVolumeInfoFirst (.ok "a:a:b") := by
  decide

end LibvirtStorage
